import Mathlib

set_option maxRecDepth 4000

deriving instance DecidableEq for Except

/-!
Shallow embedding of the F4D cloud-replication engine
(`F4D_Pi_V2/MongoUpload/mongo_api.py`, `F4D_Pi_V2/MongoUpload/last_ts_cf.py`,
`F4D_Pi_V2/MongoUpload/main.py`).

Timestamps are modelled at second precision as `Nat` values; a date-time string
is abstracted by its parse result.  Python dictionaries are modelled as
association lists in insertion order; exceptions as `Except Unit`.
-/

/-- A date-time string, abstracted by its parse result: `valid t` is a string
that `datetime.strptime` parses to the time value `t` (seconds, second
precision); `malformed` is a string on which `strptime` raises.  The source
uses the formats `%Y-%m-%dT%H:%M:%SZ` (local store) and `%Y-%m-%d %H:%M:%S`
(remote authority), both of second precision, so one time scale serves both. -/
inductive DTString
  | valid (t : Nat)
  | malformed
deriving DecidableEq

/-- A Python value that is either the integer `0` or a `datetime`, as produced
by `check_exp_name_exists_local` (`0` for an empty collection, a parsed
`datetime` otherwise). -/
inductive PyTime
  | int0
  | dt (t : Nat)
deriving DecidableEq

/-- Python `(a - b).total_seconds()` on two such values: defined (an `Int`
number of seconds) when both are `datetime`s; raises (`TypeError` on the
subtraction, or `AttributeError` on `int.total_seconds`) otherwise. -/
def pySubSeconds : PyTime → PyTime → Except Unit Int
  | PyTime.dt a, PyTime.dt b => Except.ok ((a : Int) - (b : Int))
  | _, _ => Except.error ()

/-- The `TimeStamp` field of a local-store document: either the nested
`$date` wrapper, a bare string, or absent. -/
inductive TSField
  | wrapped (s : DTString)
  | bareStr (s : DTString)
  | absent
deriving DecidableEq

/-- A local-store document, reduced to the fields the replication engine
reads: the `TimeStamp` field, `MetaData.LLA` (absent when either key is
missing), and `SensorData.Labels` / `SensorData.LabelOptions` (with the
source's `.get(…, [])` defaults). -/
structure Doc where
  ts : TSField
  lla : Option String
  labels : List String
  labelOptions : List String
deriving DecidableEq

/-- The local MongoDB: an association list from collection name to the
documents of that collection, in `_id` (insertion) order. -/
def LocalDB : Type := List (String × List Doc)

/-- Python `str.endswith("_DATA")`. -/
def endsWithDATA (s : String) : Bool :=
  s.data.reverse.take 5 == ['A', 'T', 'A', 'D', '_']

/-- Python `str.replace("_DATA", "")` on the underlying character list:
removes every non-overlapping occurrence of `_DATA`, scanning left to
right. -/
def stripDataChars : List Char → List Char
  | '_' :: 'D' :: 'A' :: 'T' :: 'A' :: rest => stripDataChars rest
  | c :: rest => c :: stripDataChars rest
  | [] => []

/-- Python `exp_name.replace("_DATA", "")` as used by `check_deltaTime_GCP`. -/
def stripData (s : String) : String := ⟨stripDataChars s.data⟩

/-- Python code-point comparison of strings (`a <= b` on character lists,
lexicographic by code point), used to model `sorted(...)`. -/
def charListLe : List Char → List Char → Bool
  | [], _ => true
  | _ :: _, [] => false
  | a :: as, b :: bs =>
    a.toNat < b.toNat || (a.toNat == b.toNat && charListLe as bs)

/-- Insert a string into an already sorted list (insertion sort step). -/
def insertStr (a : String) : List String → List String
  | [] => [a]
  | b :: bs => if charListLe a.data b.data then a :: b :: bs else b :: insertStr a bs

/-- Python `sorted` on a list of strings (stable; code-point lexicographic). -/
def sortStrings : List String → List String
  | [] => []
  | a :: as => insertStr a (sortStrings as)

/-- `get_local_collection` (mongo_api.py line 64): the collection names of the
local database, in the store's enumeration order. -/
def get_local_collection (db : LocalDB) : List String := db.map Prod.fst

/-- Collection access `db[exp_name]`: MongoDB yields an empty collection for a
missing name rather than an error. -/
def lookupColl (db : LocalDB) (exp_name : String) : List Doc :=
  (List.lookup exp_name db).getD []

/-- `datetime.strptime` on an abstracted date-time string: the parsed value,
or an exception for a malformed string. -/
def strptimeE : DTString → Except Unit Nat
  | DTString.valid t => Except.ok t
  | DTString.malformed => Except.error ()

/-- The subscripting `doc["TimeStamp"]["$date"]` done by
`check_exp_name_exists_local` (mongo_api.py lines 85, 91): succeeds only on
the nested wrapper form; a bare string raises `TypeError`, an absent
`TimeStamp` raises `KeyError`. -/
def tsOfDoc (d : Doc) : Except Unit DTString :=
  match d.ts with
  | TSField.wrapped s => Except.ok s
  | TSField.bareStr _ => Except.error ()
  | TSField.absent => Except.error ()

/-- The per-document branch of `check_exp_name_exists_local`: `0` when
`find_one` returned no document, otherwise
`datetime.strptime(doc["TimeStamp"]["$date"], "%Y-%m-%dT%H:%M:%SZ")`. -/
def docTime : Option Doc → Except Unit PyTime
  | none => Except.ok PyTime.int0
  | some d =>
    match tsOfDoc d with
    | Except.error u => Except.error u
    | Except.ok s =>
      match strptimeE s with
      | Except.error u => Except.error u
      | Except.ok t => Except.ok (PyTime.dt t)

/-- The per-experiment record built by `check_exp_name_exists_local`
(source order: `last_local` computed first, then `first_local`). -/
structure LocalEntry where
  last_local : PyTime
  first_local : PyTime
deriving DecidableEq

/-- One iteration of `check_exp_name_exists_local`'s loop body for a
collection: `find_one` sorted by `_id` descending gives the list's last
document, ascending gives its head. -/
def localEntryOf (coll : List Doc) : Except Unit LocalEntry :=
  match docTime coll.getLast? with
  | Except.error u => Except.error u
  | Except.ok lastT =>
    match docTime coll.head? with
    | Except.error u => Except.error u
    | Except.ok firstT => Except.ok ⟨lastT, firstT⟩

/-- The loop of `check_exp_name_exists_local` over the (already
`_DATA`-filtered) experiment names.  There is no `try/except` in this
function: a parse failure propagates out of the whole call. -/
def checkExpLocalAux (db : LocalDB) : List String → Except Unit (List (String × LocalEntry))
  | [] => Except.ok []
  | e :: rest =>
    match localEntryOf (lookupColl db e) with
    | Except.error u => Except.error u
    | Except.ok ent =>
      match checkExpLocalAux db rest with
      | Except.error u => Except.error u
      | Except.ok tail => Except.ok ((e, ent) :: tail)

/-- `check_exp_name_exists_local` (mongo_api.py lines 71-101): for every name
carrying the `_DATA` suffix (names without it are skipped by `continue`),
record the parsed timestamps of the last and first document by `_id`. -/
def check_exp_name_exists_local (exp_name_list : List String) (db : LocalDB) :
    Except Unit (List (String × LocalEntry)) :=
  checkExpLocalAux db (exp_name_list.filter endsWithDATA)

/-- A value of the remote authority's JSON response map: the integer `0`
("no record yet") or a date-time string. -/
inductive RemoteVal
  | zero
  | time (s : DTString)
deriving DecidableEq

/-- Whether a response value survives the transformation inside
`query_from_gcp` (`0 if value == 0 else int(datetime.strptime(value, …)
.timestamp())`): `0` and parsable strings do; a malformed string makes
`strptime` raise. -/
def remoteValOk : RemoteVal → Bool
  | RemoteVal.zero => true
  | RemoteVal.time (DTString.valid _) => true
  | RemoteVal.time DTString.malformed => false

/-- The outcome of the HTTP POST issued by `query_from_gcp`: a 200 response
with a JSON map, a non-200 status, or a transport-level failure (connection
error, timeout, token-refresh failure — anything raising inside the `try`
before or during the request). -/
inductive HTTPOutcome
  | ok (resp : List (String × RemoteVal))
  | badStatus (code : Nat)
  | transportError
deriving DecidableEq

/-- `query_from_gcp` (last_ts_cf.py lines 13-77).  On a 200 response the
function computes `transformed_data` (parsing every value; a malformed value
raises inside the `try`, so the call returns `None`) but — as written —
returns the raw `response_data`.  On a non-200 status it returns a map with
every requested experiment name set to `0`.  On any exception (transport
error, timeout, credential failure, malformed 200 payload) the `except`
clause returns `None`. -/
def query_from_gcp (experiment_names : List String) (http : HTTPOutcome) :
    Option (List (String × RemoteVal)) :=
  match http with
  | HTTPOutcome.ok resp =>
    if resp.all (fun kv => remoteValOk kv.2) then some resp else none
  | HTTPOutcome.badStatus _ =>
    some (experiment_names.map (fun e => (e, RemoteVal.zero)))
  | HTTPOutcome.transportError => none

/-- The body of the `try` in `check_deltaTime_GCP`'s per-experiment loop
(mongo_api.py lines 129-149): resolve the effective authority time, subtract,
and keep the experiment exactly when the delta is positive; on any exception
the `except` clause stores `first_local` for the experiment. -/
def resolveOne (ent : LocalEntry) (global_time : RemoteVal) : Option PyTime :=
  let attempt : Except Unit (Option PyTime) :=
    match global_time with
    | RemoteVal.zero =>
      match pySubSeconds ent.last_local ent.first_local with
      | Except.error u => Except.error u
      | Except.ok d => Except.ok (if 0 < d then some ent.first_local else none)
    | RemoteVal.time s =>
      match strptimeE s with
      | Except.error u => Except.error u
      | Except.ok t =>
        match pySubSeconds ent.last_local (PyTime.dt t) with
        | Except.error u => Except.error u
        | Except.ok d => Except.ok (if 0 < d then some (PyTime.dt t) else none)
  match attempt with
  | Except.ok r => r
  | Except.error _ => some ent.first_local

/-- The loop of `check_deltaTime_GCP` over `dicty_local`: the dictionary
subscript `transformed_data[exp_name.replace("_DATA", "")]` sits *outside*
the `try`, so a missing key raises out of the whole function (`KeyError`). -/
def deltaAux (transformed_data : List (String × RemoteVal)) :
    List (String × LocalEntry) → Except Unit (List (String × PyTime))
  | [] => Except.ok []
  | (e, ent) :: rest =>
    match List.lookup (stripData e) transformed_data with
    | none => Except.error ()
    | some g =>
      match deltaAux transformed_data rest with
      | Except.error u => Except.error u
      | Except.ok tail =>
        match resolveOne ent g with
        | some c => Except.ok ((e, c) :: tail)
        | none => Except.ok tail

/-- `check_deltaTime_GCP` (mongo_api.py lines 104-151): query the remote
authority with the `_DATA`-stripped experiment names, then resolve one cursor
per local experiment.  When `query_from_gcp` returned `None`, the subscript
`transformed_data[…]` raises `TypeError` at the first loop iteration — unless
`dicty_local` is empty, in which case the loop never runs and the empty
dictionary is returned. -/
def check_deltaTime_GCP (dicty_local : List (String × LocalEntry))
    (exp_name_list : List String) (http : HTTPOutcome) :
    Except Unit (List (String × PyTime)) :=
  let filtered_experiment_names := (exp_name_list.filter endsWithDATA).map stripData
  match query_from_gcp filtered_experiment_names http with
  | none => if dicty_local.isEmpty then Except.ok [] else Except.error ()
  | some transformed_data => deltaAux transformed_data dicty_local

/-- An uploaded document as built inside `Push_To_Mongo`'s streaming loop:
the `TimeStamp` field normalized to a single bare string (`some s`), or left
absent (`none`) when the source document had none; `MetaData.LLA` and the
label fields are carried through.  The freshly drawn `_id` / `UniqueID`
(random `ObjectId` / `uuid4`) are not modelled. -/
structure UpDoc where
  ts : Option DTString
  lla : Option String
  labels : List String
  labelOptions : List String
deriving DecidableEq

/-- The normalization in mongo_api.py lines 242-249: unwrap a nested
`$date` wrapper or keep a bare string as the single canonical `TimeStamp`
field; a document without `TimeStamp` is appended unchanged. -/
def normalizeDoc (d : Doc) : UpDoc :=
  match d.ts with
  | TSField.wrapped s => ⟨some s, d.lla, d.labels, d.labelOptions⟩
  | TSField.bareStr s => ⟨some s, d.lla, d.labels, d.labelOptions⟩
  | TSField.absent => ⟨none, d.lla, d.labels, d.labelOptions⟩

/-- MongoDB semantics of the filter built in mongo_api.py lines 217-227:
`none` is the empty filter (matching every document); `some c` is
`TimeStamp.$date > cursor-string`.  The dotted path `TimeStamp.$date` exists
only for documents whose `TimeStamp` is the nested wrapper, so a bare-string
or absent `TimeStamp` never matches; `$gt` on two strings of the same fixed
ISO format agrees with the order of the encoded times (the comparison of a
malformed stored string is not modelled and treated as non-matching). -/
def matchesQuery (query : Option Nat) (d : Doc) : Bool :=
  match query with
  | none => true
  | some c =>
    match d.ts with
    | TSField.wrapped (DTString.valid t) => c < t
    | _ => false

/-- The query built from `last_sync_time` at the top of `Push_To_Mongo`'s
loop: the Python `0` gives the empty filter (pull all data); a `datetime`
gives the strict `$gt` filter on its ISO rendering. -/
def queryOf : PyTime → Option Nat
  | PyTime.int0 => none
  | PyTime.dt t => some t

/-- `batch_size` (mongo_api.py line 232). -/
def batch_size : Nat := 5000

/-- `upload_json_batch_to_gcs` (mongo_api.py lines 26-50): the whole body sits
inside `try … except Exception`, so a storage failure is logged and the
function returns normally.  `gcsOk` abstracts whether the storage call
succeeds; the result is the blob actually stored (`none` when the write
failed and was swallowed). -/
def upload_json_batch_to_gcs (gcsOk : Bool) (json_batch : List UpDoc) :
    Option (List UpDoc) :=
  let attempt : Except Unit (List UpDoc) :=
    if gcsOk then Except.ok json_batch else Except.error ()
  match attempt with
  | Except.ok b => some b
  | Except.error _ => none

/-- One flush (mongo_api.py lines 263-280 and 284-299): the batch passed to
`collection_global.insert_many(batch, ordered=False)`, the batch passed to
`upload_json_batch_to_gcs` (`batch_google` holds the very same mutated
document objects as `batch`), and the blob that ended up stored. -/
structure FlushRec where
  inserted : List UpDoc
  blobCall : List UpDoc
  blobWritten : Option (List UpDoc)
deriving DecidableEq

/-- The mutable state of `Push_To_Mongo`'s streaming loop: the current batch,
the flushes performed so far, and `last_seen_doc_by_LLa`. -/
structure LoopState where
  batch : List UpDoc
  flushes : List FlushRec
  llaMap : List (String × UpDoc)
deriving DecidableEq

/-- Python dictionary assignment `m[k] = v` preserving insertion order. -/
def assocSet (m : List (String × UpDoc)) (k : String) (v : UpDoc) :
    List (String × UpDoc) :=
  match m with
  | [] => [(k, v)]
  | (k2, v2) :: rest =>
    if k2 == k then (k2, v) :: rest else (k2, v2) :: assocSet rest k v

/-- One iteration of `Push_To_Mongo`'s `for doc in query_result` loop
(mongo_api.py lines 239-280): normalize the timestamp, remember the last
document per `MetaData.LLA` (only documents that have a `TimeStamp` reach the
tracking code), append to both batches, and flush when `batch_size` is
reached. -/
def stepDoc (gcsOk : Bool) (st : LoopState) (d : Doc) : LoopState :=
  let u := normalizeDoc d
  let llaMap2 :=
    match d.ts, d.lla with
    | TSField.absent, _ => st.llaMap
    | _, none => st.llaMap
    | _, some l => assocSet st.llaMap l u
  let batch2 := st.batch ++ [u]
  if batch2.length = batch_size then
    ⟨[], st.flushes ++ [⟨batch2, batch2, upload_json_batch_to_gcs gcsOk batch2⟩], llaMap2⟩
  else
    ⟨batch2, st.flushes, llaMap2⟩

/-- What one experiment's processing produced: the flushes (Cloud Store
insert calls paired with Blob Archive writes) and the label backfill updates
`update_many({"MetaData.LLA": lla}, {"$set": …})` issued afterwards. -/
structure ExpEffects where
  exp_name : String
  flushes : List FlushRec
  labelUpdates : List (String × List String × List String)
deriving DecidableEq

/-- The per-experiment body of `Push_To_Mongo` (mongo_api.py lines 212-316):
build the query, stream the matching documents in `_id` order, flush every
full batch, flush the remaining partial batch, then issue one label update
per tracked LLA.  (The `isinstance` guard at line 221 can only see `0` or a
`datetime`, both handled by `queryOf`, so its `continue` branch is
unreachable.) -/
def pushExp (gcsOk : Bool) (exp_name : String) (last_sync_time : PyTime)
    (coll : List Doc) : ExpEffects :=
  let docs := coll.filter (matchesQuery (queryOf last_sync_time))
  let st := docs.foldl (stepDoc gcsOk) ⟨[], [], []⟩
  let flushes :=
    if st.batch.isEmpty then st.flushes
    else st.flushes ++ [⟨st.batch, st.batch, upload_json_batch_to_gcs gcsOk st.batch⟩]
  ⟨exp_name, flushes, st.llaMap.map (fun p => (p.1, p.2.labels, p.2.labelOptions))⟩

/-- One entry of `Push_To_Mongo`'s outer loop with its `try/except` boundary:
`queryFails exp_name` abstracts a per-experiment fatal error raised while
querying or streaming this experiment, which the `except` at line 318 catches
and logs, leaving no effects for this experiment but continuing the loop. -/
def pushEntry (gcsOk : Bool) (queryFails : String → Bool) (db : LocalDB)
    (p : String × PyTime) : ExpEffects :=
  if queryFails p.1 then ⟨p.1, [], []⟩
  else pushExp gcsOk p.1 p.2 (lookupColl db p.1)

/-- `Push_To_Mongo` (mongo_api.py lines 201-320): process every experiment of
`dicty_diff` in order, each inside its own `try/except` boundary. -/
def Push_To_Mongo (gcsOk : Bool) (queryFails : String → Bool) (db : LocalDB)
    (dicty_diff : List (String × PyTime)) : List ExpEffects :=
  dicty_diff.map (pushEntry gcsOk queryFails db)

/-- The experiment-name list a cycle works from (mongo_api.py line 328):
`sorted(get_local_collection())[1:]` — the sorted collection names with the
first one dropped. -/
def cycleExpNames (db : LocalDB) : List String :=
  (sortStrings (get_local_collection db)).drop 1

/-- `Mongo_Push_Cloud` (mongo_api.py lines 325-336): one sync cycle inside a
top-level `try/except`.  `some effects` models the `return True` of a cycle
that ran to completion; `none` models the `except` path (the function then
falls through returning `None`, which the scheduler treats as a failed
cycle). -/
def Mongo_Push_Cloud (db : LocalDB) (http : HTTPOutcome) (gcsOk : Bool)
    (queryFails : String → Bool) : Option (List ExpEffects) :=
  let exp_names := cycleExpNames db
  match check_exp_name_exists_local exp_names db with
  | Except.error _ => none
  | Except.ok dicty_local =>
    match check_deltaTime_GCP dicty_local exp_names http with
    | Except.error _ => none
    | Except.ok dicty_diff => some (Push_To_Mongo gcsOk queryFails db dicty_diff)

/-- `MINUTE` (main.py line 20), in seconds. -/
def MINUTE : Nat := 60

/-- The scheduler's backoff state (main.py lines 21-22): `wait_time` in
seconds and the `first_try` flag. -/
structure BackoffState where
  wait_time : Nat
  first_try : Bool
deriving DecidableEq

/-- How one iteration of the `while True` loop in main.py ends: the push
returned `True`; the push returned a falsy value (`None`, the "nothing
synced" outcome); or the loop body raised. -/
inductive CycleOutcome
  | success
  | noSync
  | exn
deriving DecidableEq

/-- The backoff update of one loop iteration (main.py lines 28-63).  On
success: reset to 15 minutes, `first_try := True`.  On a falsy result: keep
the wait on the first consecutive failure; afterwards add 15 minutes while
`wait_time <= 3` hours, and reset to 15 minutes once it is above 3 hours.  On
an exception: same first-try handling, but the increase is uncapped. -/
def schedStep (s : BackoffState) : CycleOutcome → BackoffState
  | CycleOutcome.success => ⟨15 * MINUTE, true⟩
  | CycleOutcome.noSync =>
    if s.first_try then ⟨s.wait_time, false⟩
    else if s.wait_time ≤ 3 * 60 * MINUTE then ⟨s.wait_time + 15 * MINUTE, s.first_try⟩
    else ⟨15 * MINUTE, s.first_try⟩
  | CycleOutcome.exn =>
    if s.first_try then ⟨s.wait_time, false⟩
    else ⟨s.wait_time + 15 * MINUTE, s.first_try⟩

/-- The scheduler's initial state (main.py lines 21-22): 15 minutes,
first attempt pending. -/
def schedInit : BackoffState := ⟨15 * MINUTE, true⟩

/-- The backoff states reached after each of a sequence of cycle outcomes. -/
def schedTrace (s : BackoffState) : List CycleOutcome → List BackoffState
  | [] => []
  | o :: os =>
    let s2 := schedStep s o
    s2 :: schedTrace s2 os

/-- All records a run of `Push_To_Mongo` handed to Cloud Store insert calls
for one experiment, in order: the concatenation of the inserted batches. -/
def uploadedDocs (eff : ExpEffects) : List UpDoc :=
  (eff.flushes.map FlushRec.inserted).flatten

/-- A flush record with the Blob Archive result blanked, used to relate runs
whose storage uploads all fail to runs whose uploads all succeed. -/
def eraseFlushBlob (f : FlushRec) : FlushRec := ⟨f.inserted, f.blobCall, none⟩

/-- `eraseFlushBlob` lifted to a loop state. -/
def eraseStateBlob (st : LoopState) : LoopState :=
  ⟨st.batch, st.flushes.map eraseFlushBlob, st.llaMap⟩

/-- `eraseFlushBlob` lifted to one experiment's effects. -/
def eraseEffBlob (eff : ExpEffects) : ExpEffects :=
  ⟨eff.exp_name, eff.flushes.map eraseFlushBlob, eff.labelUpdates⟩

/-! Helper lemmas shared by several claims. -/

/-- The keys produced by `checkExpLocalAux` are exactly the names it was
given, in order. -/
theorem checkExpLocalAux_keys (db : LocalDB) :
    ∀ (l : List String) (dl : List (String × LocalEntry)),
      checkExpLocalAux db l = Except.ok dl → dl.map Prod.fst = l := by
  intro l
  induction l with
  | nil =>
    intro dl h
    simp only [checkExpLocalAux] at h
    cases h
    rfl
  | cons e rest ih =>
    intro dl h
    simp only [checkExpLocalAux] at h
    cases h1 : localEntryOf (lookupColl db e) with
    | error u => rw [h1] at h; cases h
    | ok ent =>
      rw [h1] at h
      cases h2 : checkExpLocalAux db rest with
      | error u => rw [h2] at h; cases h
      | ok tail =>
        rw [h2] at h
        cases h
        simp [ih tail h2]

/-- The keys of a successful `check_exp_name_exists_local` result are the
`_DATA`-suffixed names of the input list, in order. -/
theorem check_exp_keys (exp_name_list : List String) (db : LocalDB)
    (dl : List (String × LocalEntry))
    (h : check_exp_name_exists_local exp_name_list db = Except.ok dl) :
    dl.map Prod.fst = exp_name_list.filter endsWithDATA :=
  checkExpLocalAux_keys db _ dl h

/-- Looking up any requested key in the zero map returns the zero sentinel. -/
theorem lookup_const_zero (names : List String) (k : String) (hk : k ∈ names) :
    List.lookup k (names.map (fun e => (e, RemoteVal.zero))) = some RemoteVal.zero := by
  induction names with
  | nil => cases hk
  | cons n ns ih =>
    simp only [List.map_cons, List.lookup]
    by_cases h : k = n
    · simp [h]
    · have : k ∈ ns := by
        cases hk with
        | head => exact absurd rfl h
        | tail _ hm => exact hm
      simp [h, ih this]
      cases k == n <;> rfl

/-- Over the zero map, the resolver loop never raises and keeps exactly the
experiments whose zero-sentinel resolution is `some`. -/
theorem deltaAux_zero (names : List String) :
    ∀ dl : List (String × LocalEntry), (∀ p ∈ dl, stripData p.1 ∈ names) →
      deltaAux (names.map (fun e => (e, RemoteVal.zero))) dl
        = Except.ok (dl.filterMap
            (fun p => (resolveOne p.2 RemoteVal.zero).map (fun c => (p.1, c)))) := by
  intro dl
  induction dl with
  | nil => intro _; rfl
  | cons p rest ih =>
    intro hmem
    obtain ⟨e, ent⟩ := p
    have hk : stripData e ∈ names := hmem (e, ent) (List.mem_cons_self _ _)
    have hrest : ∀ q ∈ rest, stripData q.1 ∈ names := fun q hq =>
      hmem q (List.mem_cons_of_mem _ hq)
    simp only [deltaAux, lookup_const_zero names (stripData e) hk, ih hrest,
      List.filterMap_cons]
    cases hr : resolveOne ent RemoteVal.zero with
    | none => simp
    | some c => simp

/-- In a list of pairs with `Nodup` keys, a key determines its value. -/
theorem key_nodup_unique {β : Type} :
    ∀ (l : List (String × β)), (l.map Prod.fst).Nodup →
      ∀ (a : String) (b1 b2 : β), (a, b1) ∈ l → (a, b2) ∈ l → b1 = b2 := by
  intro l
  induction l with
  | nil => intro _ a b1 b2 h1; cases h1
  | cons p rest ih =>
    intro hnd a b1 b2 h1 h2
    simp only [List.map_cons, List.nodup_cons] at hnd
    cases h1 with
    | head =>
      cases h2 with
      | head => rfl
      | tail _ hm =>
        exact absurd (List.mem_map_of_mem Prod.fst hm) hnd.1
    | tail _ hm1 =>
      cases h2 with
      | head =>
        exact absurd (List.mem_map_of_mem Prod.fst hm1) hnd.1
      | tail _ hm2 => exact ih hnd.2 a b1 b2 hm1 hm2

/-- Zero-sentinel resolution for an experiment whose first and last local
timestamps parsed to `datetime`s: the cursor is `first_local` exactly when
`first < last`, and the experiment is dropped otherwise. -/
theorem resolveOne_zero_eval (l f : Nat) :
    resolveOne ⟨PyTime.dt l, PyTime.dt f⟩ RemoteVal.zero
      = if f < l then some (PyTime.dt f) else none := by
  have hsub : (0 : Int) < (l : Int) - (f : Int) ↔ f < l := by omega
  simp only [resolveOne, pySubSeconds]
  by_cases h : f < l
  · simp [h, hsub.mpr h]
  · have : ¬ (0 : Int) < (l : Int) - (f : Int) := fun hc => h (hsub.mp hc)
    simp [h, this]

/-- Whenever zero-sentinel resolution keeps an experiment, the cursor it
assigns is the experiment's `first_local` (also through the exception
fallback). -/
theorem resolveOne_zero_some (ent : LocalEntry) (c : PyTime)
    (h : resolveOne ent RemoteVal.zero = some c) : c = ent.first_local := by
  simp only [resolveOne, pySubSeconds] at h
  cases hl : ent.last_local with
  | int0 =>
    rw [hl] at h
    simp at h
    exact h.symm
  | dt a =>
    cases hf : ent.first_local with
    | int0 =>
      rw [hl, hf] at h
      simp at h
      exact h.symm
    | dt b =>
      rw [hl, hf] at h
      simp only [] at h
      by_cases hlt : (0 : Int) < (a : Int) - (b : Int)
      · simp [hlt] at h
        exact h.symm
      · simp [hlt] at h

/-- Resolution against a reachable authority value that parses to `t`, for an
experiment whose `last_local` is a `datetime`: the experiment is kept with
cursor `t` exactly when `t < last_local`. -/
theorem resolveOne_time_valid (ent : LocalEntry) (l t : Nat)
    (h : ent.last_local = PyTime.dt l) :
    resolveOne ent (RemoteVal.time (DTString.valid t))
      = if t < l then some (PyTime.dt t) else none := by
  have hsub : (0 : Int) < (l : Int) - (t : Int) ↔ t < l := by omega
  simp only [resolveOne, strptimeE, pySubSeconds, h]
  by_cases hc : t < l
  · simp [hc, hsub.mpr hc]
  · have : ¬ (0 : Int) < (l : Int) - (t : Int) := fun hx => hc (hsub.mp hx)
    simp [hc, this]

/-- Case analysis of one loop step: a full batch flushes and clears, a
non-full batch just grows. -/
theorem stepDoc_cases (g : Bool) (st : LoopState) (d : Doc) :
    ((st.batch ++ [normalizeDoc d]).length = batch_size →
        (stepDoc g st d).batch = []
        ∧ (stepDoc g st d).flushes
            = st.flushes ++ [⟨st.batch ++ [normalizeDoc d], st.batch ++ [normalizeDoc d],
                upload_json_batch_to_gcs g (st.batch ++ [normalizeDoc d])⟩])
    ∧ ((st.batch ++ [normalizeDoc d]).length ≠ batch_size →
        (stepDoc g st d).batch = st.batch ++ [normalizeDoc d]
        ∧ (stepDoc g st d).flushes = st.flushes) := by
  constructor
  · intro hfull
    have hf2 : st.batch.length + 1 = batch_size := by simpa using hfull
    simp [stepDoc, hf2]
  · intro hfull
    have hf2 : ¬ st.batch.length + 1 = batch_size := by simpa using hfull
    simp [stepDoc, hf2]

/-- Counting invariant of the streaming loop: folding `k` further documents
into a state whose batch is below `batch_size` performs `(b + k) / 5000`
further flushes and leaves `(b + k) % 5000` documents in the batch, where
`b` is the starting batch length. -/
theorem foldl_stepDoc_count (g : Bool) :
    ∀ (ds : List Doc) (st : LoopState), st.batch.length < batch_size →
      ((ds.foldl (stepDoc g) st).flushes.length
          = st.flushes.length + (st.batch.length + ds.length) / batch_size
        ∧ (ds.foldl (stepDoc g) st).batch.length
          = (st.batch.length + ds.length) % batch_size
        ∧ (ds.foldl (stepDoc g) st).batch.length < batch_size) := by
  intro ds
  induction ds with
  | nil =>
    intro st hlt
    refine ⟨?_, ?_, ?_⟩
    · simp [Nat.div_eq_of_lt hlt]
    · simp [Nat.mod_eq_of_lt hlt]
    · simpa using hlt
  | cons d rest ih =>
    intro st hlt
    rw [List.foldl_cons]
    by_cases hfull : (st.batch ++ [normalizeDoc d]).length = batch_size
    · obtain ⟨hba, hfl⟩ := (stepDoc_cases g st d).1 hfull
      have hz : (stepDoc g st d).batch.length < batch_size := by
        rw [hba]; simp [batch_size]
      obtain ⟨ih1, ih2, ih3⟩ := ih (stepDoc g st d) hz
      simp only [List.length_append, List.length_cons, List.length_nil] at hfull
      refine ⟨?_, ?_, ih3⟩
      · rw [ih1, hfl, hba]
        simp only [List.length_append, List.length_cons, List.length_nil]
        simp only [batch_size] at hfull ⊢
        omega
      · rw [ih2, hba]
        simp only [List.length_cons, List.length_nil]
        simp only [batch_size] at hfull ⊢
        omega
    · obtain ⟨hba, hfl⟩ := (stepDoc_cases g st d).2 hfull
      have hlt2 : (stepDoc g st d).batch.length < batch_size := by
        rw [hba]
        simp only [List.length_append, List.length_cons, List.length_nil] at hfull ⊢
        simp only [batch_size] at hlt hfull ⊢
        omega
      obtain ⟨ih1, ih2, ih3⟩ := ih (stepDoc g st d) hlt2
      simp only [List.length_append, List.length_cons, List.length_nil] at hfull
      refine ⟨?_, ?_, ih3⟩
      · rw [ih1, hfl, hba]
        simp only [List.length_append, List.length_cons, List.length_nil]
        simp only [batch_size] at hlt hfull ⊢
        omega
      · rw [ih2, hba]
        simp only [List.length_append, List.length_cons, List.length_nil]
        simp only [batch_size] at hlt hfull ⊢
        omega

/-- Every flush produced by the loop passes the very same batch to the cloud
insert and to the blob upload (the source appends the same mutated documents
to `batch` and `batch_google`). -/
theorem foldl_stepDoc_blobCall (g : Bool) :
    ∀ (ds : List Doc) (st : LoopState),
      (∀ f ∈ st.flushes, f.inserted = f.blobCall) →
      ∀ f ∈ (ds.foldl (stepDoc g) st).flushes, f.inserted = f.blobCall := by
  intro ds
  induction ds with
  | nil => intro st h; simpa using h
  | cons d rest ih =>
    intro st h
    rw [List.foldl_cons]
    apply ih
    simp only [stepDoc]
    by_cases hfull : (st.batch ++ [normalizeDoc d]).length = batch_size
    · simp only [hfull, if_true]
      intro f hf
      rcases List.mem_append.mp hf with hf1 | hf2
      · exact h f hf1
      · rcases List.mem_singleton.mp hf2 with rfl
        rfl
    · simp only [hfull, if_false]
      exact h

/-- Streaming invariant: the flushed batches followed by the pending batch
are exactly the normalized documents seen so far. -/
theorem foldl_stepDoc_flatten (g : Bool) :
    ∀ (ds : List Doc) (st : LoopState),
      ((ds.foldl (stepDoc g) st).flushes.map FlushRec.inserted).flatten
          ++ (ds.foldl (stepDoc g) st).batch
        = (st.flushes.map FlushRec.inserted).flatten ++ st.batch
            ++ ds.map normalizeDoc := by
  intro ds
  induction ds with
  | nil => intro st; simp
  | cons d rest ih =>
    intro st
    rw [List.foldl_cons]
    rw [ih]
    simp only [stepDoc]
    by_cases hfull : (st.batch ++ [normalizeDoc d]).length = batch_size
    · simp only [hfull, if_true]
      simp [List.append_assoc]
    · simp only [hfull, if_false]
      simp [List.append_assoc]

/-- The documents one experiment uploads are exactly the normalized matches
of its query, in stream order. -/
theorem pushExp_uploadedDocs (g : Bool) (e : String) (t : PyTime) (coll : List Doc) :
    uploadedDocs (pushExp g e t coll)
      = ((coll.filter (matchesQuery (queryOf t))).map normalizeDoc) := by
  have h := foldl_stepDoc_flatten g (coll.filter (matchesQuery (queryOf t)))
    ⟨[], [], []⟩
  simp only [List.map_nil, List.flatten_nil, List.nil_append] at h
  simp only [pushExp, uploadedDocs]
  by_cases hb : ((coll.filter (matchesQuery (queryOf t))).foldl (stepDoc g)
      ⟨[], [], []⟩).batch.isEmpty
  · simp only [hb, if_true]
    have hbn : ((coll.filter (matchesQuery (queryOf t))).foldl (stepDoc g)
        ⟨[], [], []⟩).batch = [] := by
      cases hx : ((coll.filter (matchesQuery (queryOf t))).foldl (stepDoc g)
          ⟨[], [], []⟩).batch with
      | nil => rfl
      | cons a as => rw [hx] at hb; simp [List.isEmpty] at hb
    rw [hbn, List.append_nil] at h
    exact h
  · have hb2 : ((coll.filter (matchesQuery (queryOf t))).foldl (stepDoc g)
        ⟨[], [], []⟩).batch.isEmpty = false := by
      cases hx : ((coll.filter (matchesQuery (queryOf t))).foldl (stepDoc g)
          ⟨[], [], []⟩).batch.isEmpty
      · rfl
      · exact absurd hx hb
    simp only [hb2, Bool.false_eq_true, if_false, List.map_append, List.flatten_append,
      List.map_cons, List.map_nil, List.flatten_cons, List.flatten_nil, List.append_nil]
    exact h

/-- A step with failing blob storage acts like a step with working storage,
except that the stored blob of every flush is `none`. -/
theorem stepDoc_gcsFail (st : LoopState) (d : Doc) :
    stepDoc false (eraseStateBlob st) d = eraseStateBlob (stepDoc true st d) := by
  by_cases hfull : (st.batch ++ [normalizeDoc d]).length = batch_size
  · have hf2 : st.batch.length + 1 = batch_size := by simpa using hfull
    simp [stepDoc, eraseStateBlob, hf2, upload_json_batch_to_gcs, eraseFlushBlob]
  · have hf2 : ¬ st.batch.length + 1 = batch_size := by simpa using hfull
    simp [stepDoc, eraseStateBlob, hf2]

/-- The whole streaming loop with failing blob storage, related to the loop
with working storage. -/
theorem foldl_stepDoc_gcsFail :
    ∀ (ds : List Doc) (st : LoopState),
      ds.foldl (stepDoc false) (eraseStateBlob st)
        = eraseStateBlob (ds.foldl (stepDoc true) st) := by
  intro ds
  induction ds with
  | nil => intro st; rfl
  | cons d rest ih =>
    intro st
    rw [List.foldl_cons, List.foldl_cons, stepDoc_gcsFail, ih]

/-- One experiment processed with failing blob storage: identical effects
except that no blob gets stored. -/
theorem pushExp_gcsFail (e : String) (t : PyTime) (coll : List Doc) :
    pushExp false e t coll = eraseEffBlob (pushExp true e t coll) := by
  have h := foldl_stepDoc_gcsFail (coll.filter (matchesQuery (queryOf t))) ⟨[], [], []⟩
  have hinit : eraseStateBlob ⟨[], [], []⟩ = (⟨[], [], []⟩ : LoopState) := rfl
  rw [hinit] at h
  simp only [pushExp, h, eraseStateBlob, eraseEffBlob]
  by_cases hb : ((coll.filter (matchesQuery (queryOf t))).foldl (stepDoc true)
      ⟨[], [], []⟩).batch.isEmpty
  · simp [hb]
  · have hb2 : ((coll.filter (matchesQuery (queryOf t))).foldl (stepDoc true)
        ⟨[], [], []⟩).batch.isEmpty = false := by
      cases hx : ((coll.filter (matchesQuery (queryOf t))).foldl (stepDoc true)
          ⟨[], [], []⟩).batch.isEmpty
      · rfl
      · exact absurd hx hb
    simp [hb2, upload_json_batch_to_gcs, eraseFlushBlob]

/-- A whole `Push_To_Mongo` run with failing blob storage. -/
theorem Push_To_Mongo_gcsFail (queryFails : String → Bool) (db : LocalDB)
    (dicty_diff : List (String × PyTime)) :
    Push_To_Mongo false queryFails db dicty_diff
      = (Push_To_Mongo true queryFails db dicty_diff).map eraseEffBlob := by
  simp only [Push_To_Mongo, List.map_map]
  apply List.map_congr_left
  intro p _
  simp only [Function.comp_apply, pushEntry]
  by_cases hq : queryFails p.1
  · simp [hq, eraseEffBlob]
  · simp [hq, pushExp_gcsFail]

/-- Over the zero map the resolver loop never raises; the experiments kept
are those whose zero-sentinel resolution yields a cursor. -/
theorem deltaAux_all_none (m : List (String × RemoteVal)) :
    ∀ dl : List (String × LocalEntry),
      (∀ p ∈ dl, ∃ g, List.lookup (stripData p.1) m = some g
          ∧ resolveOne p.2 g = none) →
      deltaAux m dl = Except.ok [] := by
  intro dl
  induction dl with
  | nil => intro _; rfl
  | cons p rest ih =>
    intro hmem
    obtain ⟨e, ent⟩ := p
    obtain ⟨g, hg, hr⟩ := hmem (e, ent) (List.mem_cons_self _ _)
    have hrest : ∀ q ∈ rest, ∃ g2, List.lookup (stripData q.1) m = some g2
        ∧ resolveOne q.2 g2 = none := fun q hq => hmem q (List.mem_cons_of_mem _ hq)
    simp only [deltaAux, hg, ih hrest, hr]

/-! Claim theorems. -/

/-- C1 (counterexample): the claim says that when the Remote Authority is
unreachable every experiment with at least one local record appears in the
cursor set.  Concretely, a cycle over a store whose only data collection
`e_DATA` holds exactly one record (so `first_local = last_local = 100`)
resolves, under a non-200 authority response, to an *empty* cursor set:
the experiment is silently dropped because `delta = 0` is not `> 0`. -/
theorem c1_counterexample :
    check_exp_name_exists_local
        (cycleExpNames [("0", []),
          ("e_DATA", [⟨TSField.wrapped (DTString.valid 100), none, [], []⟩])])
        [("0", []), ("e_DATA", [⟨TSField.wrapped (DTString.valid 100), none, [], []⟩])]
      = Except.ok [("e_DATA", ⟨PyTime.dt 100, PyTime.dt 100⟩)]
    ∧ check_deltaTime_GCP [("e_DATA", ⟨PyTime.dt 100, PyTime.dt 100⟩)]
        (cycleExpNames [("0", []),
          ("e_DATA", [⟨TSField.wrapped (DTString.valid 100), none, [], []⟩])])
        (HTTPOutcome.badStatus 500)
      = Except.ok [] := by
  decide

/-- C1 (amended): on a non-200 authority response the zero map is used and,
for every experiment whose first and last local timestamps parsed, the
resolver keeps the experiment with cursor `first_local` (which is `≤`
`last_local`) exactly when `first_local < last_local`; an experiment with
`last_local ≤ first_local` (e.g. a single record) is dropped from the cursor
set; and every cursor in the set is some experiment's `first_local`.  (On a
transport error the resolver instead raises — see C2.) -/
theorem c1_fallback_amended (exp_name_list : List String) (db : LocalDB)
    (dl : List (String × LocalEntry)) (code : Nat)
    (h : check_exp_name_exists_local exp_name_list db = Except.ok dl)
    (hnd : (dl.map Prod.fst).Nodup) :
    ∃ dd, check_deltaTime_GCP dl exp_name_list (HTTPOutcome.badStatus code) = Except.ok dd
      ∧ (∀ e ent f l, (e, ent) ∈ dl → ent.first_local = PyTime.dt f →
            ent.last_local = PyTime.dt l → f < l →
            (e, PyTime.dt f) ∈ dd ∧ f ≤ l)
      ∧ (∀ e ent f l, (e, ent) ∈ dl → ent.first_local = PyTime.dt f →
            ent.last_local = PyTime.dt l → l ≤ f →
            ∀ c, (e, c) ∉ dd)
      ∧ (∀ e c, (e, c) ∈ dd → ∃ ent, (e, ent) ∈ dl ∧ c = ent.first_local) := by
  have hkeys : dl.map Prod.fst = exp_name_list.filter endsWithDATA :=
    check_exp_keys exp_name_list db dl h
  have hmem : ∀ p ∈ dl,
      stripData p.1 ∈ (exp_name_list.filter endsWithDATA).map stripData := by
    intro p hp
    have h1 : p.1 ∈ dl.map Prod.fst := List.mem_map_of_mem Prod.fst hp
    rw [hkeys] at h1
    exact List.mem_map_of_mem stripData h1
  have hda := deltaAux_zero ((exp_name_list.filter endsWithDATA).map stripData) dl hmem
  refine ⟨dl.filterMap
      (fun p => (resolveOne p.2 RemoteVal.zero).map (fun c => (p.1, c))), ?_, ?_, ?_, ?_⟩
  · simp only [check_deltaTime_GCP, query_from_gcp]
    exact hda
  · intro e ent f l hp hf hl hlt
    have hent : ent = ⟨PyTime.dt l, PyTime.dt f⟩ := by
      cases ent
      simp only [LocalEntry.mk.injEq]
      exact ⟨hl, hf⟩
    refine ⟨List.mem_filterMap.mpr ⟨(e, ent), hp, ?_⟩, Nat.le_of_lt hlt⟩
    rw [hent, resolveOne_zero_eval, if_pos hlt]
    rfl
  · intro e ent f l hp hf hl hle c hc
    obtain ⟨p, hpmem, hFp⟩ := List.mem_filterMap.mp hc
    obtain ⟨p1, p2⟩ := p
    cases hro : resolveOne p2 RemoteVal.zero with
    | none => rw [hro] at hFp; simp at hFp
    | some c0 =>
      rw [hro] at hFp
      simp only [Option.map_some', Option.some.injEq, Prod.mk.injEq] at hFp
      obtain ⟨hp1, hc0⟩ := hFp
      rw [hp1] at hpmem
      have hsame : p2 = ent := key_nodup_unique dl hnd e p2 ent hpmem hp
      have hent : ent = ⟨PyTime.dt l, PyTime.dt f⟩ := by
        cases ent
        simp only [LocalEntry.mk.injEq]
        exact ⟨hl, hf⟩
      rw [hsame, hent, resolveOne_zero_eval, if_neg (by omega)] at hro
      cases hro
  · intro e c hc
    obtain ⟨p, hpmem, hFp⟩ := List.mem_filterMap.mp hc
    obtain ⟨p1, p2⟩ := p
    cases hro : resolveOne p2 RemoteVal.zero with
    | none => rw [hro] at hFp; simp at hFp
    | some c0 =>
      rw [hro] at hFp
      simp only [Option.map_some', Option.some.injEq, Prod.mk.injEq] at hFp
      obtain ⟨hp1, hc0⟩ := hFp
      rw [hp1] at hpmem
      refine ⟨p2, hpmem, ?_⟩
      rw [← hc0]
      exact resolveOne_zero_some p2 c0 hro

/-- C1 (witness): the amended theorem applied to a two-record experiment
(records at 100 and 300) under a 500 response. -/
theorem c1_witness :
    ∃ dd, check_deltaTime_GCP [("e_DATA", ⟨PyTime.dt 300, PyTime.dt 100⟩)]
        ["e_DATA"] (HTTPOutcome.badStatus 500) = Except.ok dd
      ∧ (∀ e ent f l, (e, ent) ∈ [("e_DATA", (⟨PyTime.dt 300, PyTime.dt 100⟩ : LocalEntry))] →
            ent.first_local = PyTime.dt f →
            ent.last_local = PyTime.dt l → f < l →
            (e, PyTime.dt f) ∈ dd ∧ f ≤ l)
      ∧ (∀ e ent f l, (e, ent) ∈ [("e_DATA", (⟨PyTime.dt 300, PyTime.dt 100⟩ : LocalEntry))] →
            ent.first_local = PyTime.dt f →
            ent.last_local = PyTime.dt l → l ≤ f →
            ∀ c, (e, c) ∉ dd)
      ∧ (∀ e c, (e, c) ∈ dd →
            ∃ ent, (e, ent) ∈ [("e_DATA", (⟨PyTime.dt 300, PyTime.dt 100⟩ : LocalEntry))]
              ∧ c = ent.first_local) :=
  c1_fallback_amended ["e_DATA"]
    [("e_DATA", [⟨TSField.wrapped (DTString.valid 100), none, [], []⟩,
      ⟨TSField.wrapped (DTString.valid 300), none, [], []⟩])]
    [("e_DATA", ⟨PyTime.dt 300, PyTime.dt 100⟩)] 500 (by decide) (by decide)

/-- C2 (counterexample): on a transport error `query_from_gcp` does not
return the zero map over the requested names — it returns `None`. -/
theorem c2_counterexample :
    query_from_gcp ["e"] HTTPOutcome.transportError = none
    ∧ query_from_gcp ["e"] HTTPOutcome.transportError
        ≠ some [("e", RemoteVal.zero)] := by
  exact ⟨rfl, by decide⟩

/-- C2 (amended): a non-200 status yields exactly the zero map over the
requested experiment names, but a transport error (any exception) yields
`None`; the caller `check_deltaTime_GCP` then raises on its first loop
iteration whenever at least one experiment is present, so the cycle does fail
on account of the authority in that case. -/
theorem c2_zero_map_amended :
    (∀ (names : List String) (code : Nat),
        query_from_gcp names (HTTPOutcome.badStatus code)
          = some (names.map (fun e => (e, RemoteVal.zero))))
    ∧ (∀ names : List String, query_from_gcp names HTTPOutcome.transportError = none)
    ∧ (∀ (p : String × LocalEntry) (dl : List (String × LocalEntry))
        (exp_name_list : List String),
        check_deltaTime_GCP (p :: dl) exp_name_list HTTPOutcome.transportError
          = Except.error ()) := by
  refine ⟨fun names code => rfl, fun names => rfl, fun p dl l => rfl⟩

/-- C3 (counterexample): the cursor for one experiment is *not*
non-decreasing across cycles for every behavior of the stores and the
authority.  With local records spanning 100..300: a cycle in which the
authority reports 200 yields cursor 200; a later cycle in which the authority
is unreachable (non-200) yields cursor 100 < 200. -/
theorem c3_counterexample :
    check_deltaTime_GCP [("e_DATA", ⟨PyTime.dt 300, PyTime.dt 100⟩)] ["e_DATA"]
        (HTTPOutcome.ok [("e", RemoteVal.time (DTString.valid 200))])
      = Except.ok [("e_DATA", PyTime.dt 200)]
    ∧ check_deltaTime_GCP [("e_DATA", ⟨PyTime.dt 300, PyTime.dt 100⟩)] ["e_DATA"]
        (HTTPOutcome.badStatus 500)
      = Except.ok [("e_DATA", PyTime.dt 100)]
    ∧ 100 < 200 := by
  decide

/-- C3 (amended): the cursor is non-decreasing across two cycles *provided*
the authority was reachable in both and its reported (parsable, non-zero)
timestamps did not decrease, and the experiment's `last_local` parsed in both
cycles: whenever both cycles keep the experiment, the two cursors are the two
reported times, in order. -/
theorem c3_monotone_amended (ent1 ent2 : LocalEntry) (t1 t2 l1 l2 : Nat)
    (c1 c2 : PyTime)
    (h1 : ent1.last_local = PyTime.dt l1) (h2 : ent2.last_local = PyTime.dt l2)
    (r1 : resolveOne ent1 (RemoteVal.time (DTString.valid t1)) = some c1)
    (r2 : resolveOne ent2 (RemoteVal.time (DTString.valid t2)) = some c2)
    (hle : t1 ≤ t2) :
    ∃ a b, c1 = PyTime.dt a ∧ c2 = PyTime.dt b ∧ a ≤ b := by
  rw [resolveOne_time_valid ent1 l1 t1 h1] at r1
  rw [resolveOne_time_valid ent2 l2 t2 h2] at r2
  by_cases ha : t1 < l1
  · rw [if_pos ha] at r1
    by_cases hb : t2 < l2
    · rw [if_pos hb] at r2
      exact ⟨t1, t2, (Option.some.inj r1).symm, (Option.some.inj r2).symm, hle⟩
    · rw [if_neg hb] at r2
      cases r2
  · rw [if_neg ha] at r1
    cases r1

/-- C3 (witness): the amended theorem at reported times 3 then 5 against a
store whose last local timestamp is 10. -/
theorem c3_witness :
    ∃ a b, PyTime.dt 3 = PyTime.dt a ∧ PyTime.dt 5 = PyTime.dt b ∧ a ≤ b :=
  c3_monotone_amended ⟨PyTime.dt 10, PyTime.dt 0⟩ ⟨PyTime.dt 10, PyTime.dt 0⟩
    3 5 10 10 (PyTime.dt 3) (PyTime.dt 5) rfl rfl (by decide) (by decide) (by decide)

/-- C4: if the store is unchanged and the authority reports, for every
experiment the cycle sees, exactly that experiment's latest local timestamp
as a validly formatted date-time string, then the resolver selects zero
experiments (`delta = 0` for each), the cursor set handed to the Batch
Uploader is empty, and the cycle performs no Cloud Store insert and no Blob
Archive write. -/
theorem c4_idempotent_resend (db : LocalDB) (resp : List (String × RemoteVal))
    (gcsOk : Bool) (queryFails : String → Bool) (dl : List (String × LocalEntry))
    (h : check_exp_name_exists_local (cycleExpNames db) db = Except.ok dl)
    (hok : resp.all (fun kv => remoteValOk kv.2) = true)
    (hrep : ∀ e ent, (e, ent) ∈ dl → ∃ l, ent.last_local = PyTime.dt l
        ∧ List.lookup (stripData e) resp
            = some (RemoteVal.time (DTString.valid l))) :
    check_deltaTime_GCP dl (cycleExpNames db) (HTTPOutcome.ok resp) = Except.ok []
    ∧ Mongo_Push_Cloud db (HTTPOutcome.ok resp) gcsOk queryFails = some []
    ∧ Push_To_Mongo gcsOk queryFails db [] = [] := by
  have hda : deltaAux resp dl = Except.ok [] := by
    apply deltaAux_all_none
    intro p hp
    obtain ⟨e, ent⟩ := p
    obtain ⟨l, hl, hlook⟩ := hrep e ent hp
    refine ⟨RemoteVal.time (DTString.valid l), hlook, ?_⟩
    rw [resolveOne_time_valid ent l l hl, if_neg (lt_irrefl l)]
  have hq : query_from_gcp (((cycleExpNames db).filter endsWithDATA).map stripData)
      (HTTPOutcome.ok resp) = some resp := by
    simp [query_from_gcp, hok]
  have hcd : check_deltaTime_GCP dl (cycleExpNames db) (HTTPOutcome.ok resp)
      = Except.ok [] := by
    simp only [check_deltaTime_GCP, hq]
    exact hda
  refine ⟨hcd, ?_, rfl⟩
  simp only [Mongo_Push_Cloud, h, hcd]
  rfl

/-- C4 (witness): one experiment with a single record at 50; the authority
reports 50 for it; the cycle selects nothing and uploads nothing. -/
theorem c4_witness :
    check_deltaTime_GCP [("e_DATA", ⟨PyTime.dt 50, PyTime.dt 50⟩)]
        (cycleExpNames [("0", []),
          ("e_DATA", [⟨TSField.wrapped (DTString.valid 50), none, [], []⟩])])
        (HTTPOutcome.ok [("e", RemoteVal.time (DTString.valid 50))]) = Except.ok []
    ∧ Mongo_Push_Cloud
        [("0", []), ("e_DATA", [⟨TSField.wrapped (DTString.valid 50), none, [], []⟩])]
        (HTTPOutcome.ok [("e", RemoteVal.time (DTString.valid 50))]) true
        (fun _ => false) = some []
    ∧ Push_To_Mongo true (fun _ => false)
        [("0", []), ("e_DATA", [⟨TSField.wrapped (DTString.valid 50), none, [], []⟩])]
        [] = [] :=
  c4_idempotent_resend
    [("0", []), ("e_DATA", [⟨TSField.wrapped (DTString.valid 50), none, [], []⟩])]
    [("e", RemoteVal.time (DTString.valid 50))] true (fun _ => false)
    [("e_DATA", ⟨PyTime.dt 50, PyTime.dt 50⟩)]
    (by decide) (by decide)
    (by
      intro e ent hmem
      have h2 : e = "e_DATA" ∧ ent = (⟨PyTime.dt 50, PyTime.dt 50⟩ : LocalEntry) := by
        simpa using hmem
      refine ⟨50, ?_, ?_⟩
      · rw [h2.2]
      · rw [h2.1]
        decide)

/-- C5 (counterexample): starting from the initial state (15 minutes, first
attempt), after 12 consecutive failed cycles the wait time never exceeded
180 minutes at any point of the sequence, and it ends at exactly 180
minutes — not reset to 15.  (The first failure leaves the wait unchanged, so
only 11 increments of 15 minutes have happened.) -/
theorem c5_counterexample :
    (∀ st ∈ schedTrace schedInit (List.replicate 12 CycleOutcome.noSync),
        st.wait_time ≤ 180 * MINUTE)
    ∧ (schedTrace schedInit (List.replicate 12 CycleOutcome.noSync)).getLast?
        = some ⟨180 * MINUTE, false⟩ := by
  decide

/-- C5 (amended): it takes 14 consecutive failed cycles (not 12) for the wait
time to have exceeded 180 minutes at least once (it reaches 195 minutes after
the 13th failure) and to be back at 15 minutes; and any single successful
cycle immediately resets the wait time to 15 minutes and the first-try flag,
whatever state preceded it. -/
theorem c5_sawtooth_amended :
    (∃ st ∈ schedTrace schedInit (List.replicate 14 CycleOutcome.noSync),
        180 * MINUTE < st.wait_time)
    ∧ (schedTrace schedInit (List.replicate 14 CycleOutcome.noSync)).getLast?
        = some ⟨15 * MINUTE, false⟩
    ∧ (∀ s : BackoffState, schedStep s CycleOutcome.success = ⟨15 * MINUTE, true⟩) := by
  refine ⟨by decide, by decide, fun s => rfl⟩

/-- C6: for an experiment with a cursor and `N > 0` records selected strictly
after it (the records its query streams), the uploader performs exactly
`ceil(N / 5000)` flushes — each flush being one Cloud Store `insert_many`
call paired with one Blob Archive write — and in every flush the batch handed
to the blob upload is the very batch handed to the insert call, so their
record counts agree. -/
theorem c6_batch_boundary (gcsOk : Bool) (exp_name : String) (c : Nat)
    (coll : List Doc)
    (hw : ∀ d ∈ coll, ∃ t, d.ts = TSField.wrapped (DTString.valid t))
    (hN : 0 < (coll.filter (matchesQuery (some c))).length) :
    (pushExp gcsOk exp_name (PyTime.dt c) coll).flushes.length
        = ((coll.filter (matchesQuery (some c))).length + 4999) / 5000
    ∧ ∀ f ∈ (pushExp gcsOk exp_name (PyTime.dt c) coll).flushes,
        f.inserted = f.blobCall := by
  have hz : ((⟨[], [], []⟩ : LoopState)).batch.length < batch_size := by
    simp [batch_size]
  obtain ⟨h1, h2, _⟩ :=
    foldl_stepDoc_count gcsOk (coll.filter (matchesQuery (some c))) ⟨[], [], []⟩ hz
  constructor
  · simp only [pushExp, queryOf]
    by_cases hb : ((coll.filter (matchesQuery (some c))).foldl (stepDoc gcsOk)
        ⟨[], [], []⟩).batch.isEmpty
    · have hb0 : ((coll.filter (matchesQuery (some c))).foldl (stepDoc gcsOk)
          ⟨[], [], []⟩).batch = [] := by
        cases hx : ((coll.filter (matchesQuery (some c))).foldl (stepDoc gcsOk)
            ⟨[], [], []⟩).batch with
        | nil => rfl
        | cons a as => rw [hx] at hb; simp [List.isEmpty] at hb
      rw [hb0] at h2
      simp only [hb, if_true, h1]
      simp only [List.length_nil, List.length] at h2 ⊢
      simp only [batch_size] at h1 h2 ⊢
      omega
    · have hb2 : ((coll.filter (matchesQuery (some c))).foldl (stepDoc gcsOk)
          ⟨[], [], []⟩).batch.isEmpty = false := by
        cases hx : ((coll.filter (matchesQuery (some c))).foldl (stepDoc gcsOk)
            ⟨[], [], []⟩).batch.isEmpty
        · rfl
        · exact absurd hx hb
      have hbpos : 0 < ((coll.filter (matchesQuery (some c))).foldl (stepDoc gcsOk)
          ⟨[], [], []⟩).batch.length := by
        cases hx : ((coll.filter (matchesQuery (some c))).foldl (stepDoc gcsOk)
            ⟨[], [], []⟩).batch with
        | nil => rw [hx] at hb2; simp [List.isEmpty] at hb2
        | cons a as => simp [hx]
      simp only [hb2, Bool.false_eq_true, if_false, List.length_append,
        List.length_cons, List.length_nil, h1]
      rw [h2] at hbpos
      simp only [List.length_nil] at hbpos h1 h2 ⊢
      simp only [batch_size] at h1 h2 hbpos ⊢
      omega
  · intro f hf
    simp only [pushExp, queryOf] at hf
    by_cases hb : ((coll.filter (matchesQuery (some c))).foldl (stepDoc gcsOk)
        ⟨[], [], []⟩).batch.isEmpty
    · simp only [hb, if_true] at hf
      exact foldl_stepDoc_blobCall gcsOk (coll.filter (matchesQuery (some c)))
        ⟨[], [], []⟩ (fun f2 hf2 => absurd hf2 (List.not_mem_nil f2)) f hf
    · have hb2 : ((coll.filter (matchesQuery (some c))).foldl (stepDoc gcsOk)
          ⟨[], [], []⟩).batch.isEmpty = false := by
        cases hx : ((coll.filter (matchesQuery (some c))).foldl (stepDoc gcsOk)
            ⟨[], [], []⟩).batch.isEmpty
        · rfl
        · exact absurd hx hb
      simp only [hb2, Bool.false_eq_true, if_false] at hf
      rcases List.mem_append.mp hf with hf1 | hf2
      · exact foldl_stepDoc_blobCall gcsOk (coll.filter (matchesQuery (some c)))
          ⟨[], [], []⟩ (fun f2 hf2 => absurd hf2 (List.not_mem_nil f2)) f hf1
      · rcases List.mem_singleton.mp hf2 with rfl
        rfl

/-- C6 (witness): one matching record gives exactly one flush, whose insert
batch and blob batch coincide. -/
theorem c6_witness :
    (pushExp true "e_DATA" (PyTime.dt 5)
        [⟨TSField.wrapped (DTString.valid 10), none, [], []⟩]).flushes.length
      = ((([⟨TSField.wrapped (DTString.valid 10), none, [], []⟩] : List Doc).filter
          (matchesQuery (some 5))).length + 4999) / 5000
    ∧ ∀ f ∈ (pushExp true "e_DATA" (PyTime.dt 5)
        [⟨TSField.wrapped (DTString.valid 10), none, [], []⟩]).flushes,
        f.inserted = f.blobCall :=
  c6_batch_boundary true "e_DATA" 5
    [⟨TSField.wrapped (DTString.valid 10), none, [], []⟩]
    (by
      intro d hd
      have h2 : d = (⟨TSField.wrapped (DTString.valid 10), none, [], []⟩ : Doc) := by
        simpa using hd
      exact ⟨10, by rw [h2]⟩)
    (by decide)

/-- C7 (counterexample): a record whose `TimeStamp` is a bare string is *not*
streamed under a non-sentinel cursor even though its timestamp (10) is
strictly greater than the cursor (5) — the `TimeStamp.$date` filter only
matches the nested wrapper form.  The same record *is* streamed (and
normalized) when the cursor is the "from the beginning" sentinel. -/
theorem c7_counterexample :
    uploadedDocs (pushExp true "e_DATA" (PyTime.dt 5)
        [⟨TSField.bareStr (DTString.valid 10), none, [], []⟩]) = []
    ∧ (5 : Nat) < 10
    ∧ uploadedDocs (pushExp true "e_DATA" PyTime.int0
        [⟨TSField.bareStr (DTString.valid 10), none, [], []⟩])
      = [⟨some (DTString.valid 10), none, [], []⟩] := by
  decide

/-- C7 (amended): under the sentinel cursor the filter is empty and every
record is streamed and uploaded with its timestamp normalized to the single
canonical field (both the bare and the wrapped form are normalized).  Under a
non-sentinel cursor, exactly the records stored in the *wrapped* form with
timestamp strictly greater than the cursor are streamed; a bare-string
record never matches the `TimeStamp.$date` filter, whatever its timestamp. -/
theorem c7_stream_amended :
    (∀ (gcsOk : Bool) (e : String) (coll : List Doc),
        uploadedDocs (pushExp gcsOk e PyTime.int0 coll) = coll.map normalizeDoc)
    ∧ (∀ (gcsOk : Bool) (e : String) (c : Nat) (coll : List Doc),
        uploadedDocs (pushExp gcsOk e (PyTime.dt c) coll)
          = (coll.filter (matchesQuery (some c))).map normalizeDoc)
    ∧ (∀ (c : Nat) (s : DTString) (lla : Option String) (lb lo : List String),
        matchesQuery (some c) ⟨TSField.bareStr s, lla, lb, lo⟩ = false)
    ∧ (∀ (c t : Nat) (lla : Option String) (lb lo : List String),
        matchesQuery (some c) ⟨TSField.wrapped (DTString.valid t), lla, lb, lo⟩
          = decide (c < t))
    ∧ (∀ (s : DTString) (lla : Option String) (lb lo : List String),
        normalizeDoc ⟨TSField.wrapped s, lla, lb, lo⟩ = ⟨some s, lla, lb, lo⟩
        ∧ normalizeDoc ⟨TSField.bareStr s, lla, lb, lo⟩ = ⟨some s, lla, lb, lo⟩) := by
  refine ⟨?_, ?_, fun c s lla lb lo => rfl, fun c t lla lb lo => rfl,
    fun s lla lb lo => ⟨rfl, rfl⟩⟩
  · intro gcsOk e coll
    rw [pushExp_uploadedDocs]
    congr 1
    apply List.filter_eq_self.mpr
    intro a _
    rfl
  · intro gcsOk e c coll
    rw [pushExp_uploadedDocs]
    rfl

/-- C8 (counterexample): an unparsable timestamp in one experiment is *not*
isolated at that experiment's boundary.  `a_DATA`'s only document stores its
timestamp as a bare string, so `check_exp_name_exists_local` raises before
any per-experiment boundary exists; the whole cycle returns failure and the
healthy `b_DATA` is not processed at all. -/
theorem c8_counterexample :
    check_exp_name_exists_local
        (cycleExpNames [("0", []),
          ("a_DATA", [⟨TSField.bareStr (DTString.valid 1), none, [], []⟩]),
          ("b_DATA", [⟨TSField.wrapped (DTString.valid 7), none, [], []⟩])])
        [("0", []), ("a_DATA", [⟨TSField.bareStr (DTString.valid 1), none, [], []⟩]),
          ("b_DATA", [⟨TSField.wrapped (DTString.valid 7), none, [], []⟩])]
      = Except.error ()
    ∧ Mongo_Push_Cloud
        [("0", []), ("a_DATA", [⟨TSField.bareStr (DTString.valid 1), none, [], []⟩]),
          ("b_DATA", [⟨TSField.wrapped (DTString.valid 7), none, [], []⟩])]
        (HTTPOutcome.badStatus 500) true (fun _ => false) = none := by
  decide

/-- C8 (amended): failures raised while querying/streaming one experiment
inside `Push_To_Mongo` are caught at that experiment's boundary — every
experiment of the cursor set whose own processing does not fail is fully
processed whatever happens to the others; but a fatal error during the
*timestamp-gathering* phase (`check_exp_name_exists_local`, e.g. an
unparsable timestamp) is outside any per-experiment boundary and aborts the
whole cycle. -/
theorem c8_isolation_amended :
    (∀ (gcsOk : Bool) (queryFails : String → Bool) (db : LocalDB)
        (dd : List (String × PyTime)) (e : String) (t : PyTime),
        (e, t) ∈ dd → queryFails e = false →
        pushExp gcsOk e t (lookupColl db e) ∈ Push_To_Mongo gcsOk queryFails db dd)
    ∧ (∀ (db : LocalDB) (http : HTTPOutcome) (gcsOk : Bool)
        (queryFails : String → Bool),
        check_exp_name_exists_local (cycleExpNames db) db = Except.error () →
        Mongo_Push_Cloud db http gcsOk queryFails = none) := by
  constructor
  · intro gcsOk queryFails db dd e t hmem hqf
    have hpe : pushEntry gcsOk queryFails db (e, t)
        = pushExp gcsOk e t (lookupColl db e) := by
      simp [pushEntry, hqf]
    rw [← hpe]
    exact List.mem_map_of_mem (pushEntry gcsOk queryFails db) hmem
  · intro db http gcsOk queryFails herr
    simp only [Mongo_Push_Cloud, herr]

/-- C8 (witness): the amended theorem at concrete inputs — an experiment
whose processing does not fail stays fully processed next to a failing one,
and a cycle whose timestamp-gathering raises returns failure. -/
theorem c8_witness :
    pushExp true "b_DATA" PyTime.int0 (lookupColl [] "b_DATA")
        ∈ Push_To_Mongo true (fun s => s == "a_DATA") []
          [("a_DATA", PyTime.int0), ("b_DATA", PyTime.int0)]
    ∧ Mongo_Push_Cloud
        [("0", []), ("c_DATA", [⟨TSField.bareStr (DTString.valid 2), none, [], []⟩])]
        (HTTPOutcome.badStatus 404) false (fun _ => false) = none :=
  ⟨c8_isolation_amended.1 true (fun s => s == "a_DATA") []
      [("a_DATA", PyTime.int0), ("b_DATA", PyTime.int0)] "b_DATA" PyTime.int0
      (by decide) (by decide),
    c8_isolation_amended.2
      [("0", []), ("c_DATA", [⟨TSField.bareStr (DTString.valid 2), none, [], []⟩])]
      (HTTPOutcome.badStatus 404) false (fun _ => false) (by decide)⟩

/-- C9 (counterexample): a data collection carrying the `_DATA` suffix is
*not* always considered: `sorted(...)[1:]` drops the alphabetically first
collection, so with collections `a_DATA` and `b_DATA` the cycle's
experiment-name list is just `b_DATA`, and `a_DATA` — a `_DATA` collection —
is missing from the timestamps the cycle gathers. -/
theorem c9_counterexample :
    cycleExpNames [("a_DATA", ([] : List Doc)), ("b_DATA", ([] : List Doc))]
      = ["b_DATA"]
    ∧ endsWithDATA "a_DATA" = true
    ∧ check_exp_name_exists_local
        (cycleExpNames [("a_DATA", ([] : List Doc)), ("b_DATA", ([] : List Doc))])
        [("a_DATA", ([] : List Doc)), ("b_DATA", ([] : List Doc))]
      = Except.ok [("b_DATA", ⟨PyTime.int0, PyTime.int0⟩)] := by
  decide

/-- C9 (amended): the experiments a cycle considers are exactly the
`_DATA`-suffixed names among the *sorted collection-name list minus its first
element*: collections without the suffix are all skipped, but a `_DATA`
collection that sorts first is dropped too. -/
theorem c9_considered_amended (db : LocalDB) (dl : List (String × LocalEntry))
    (h : check_exp_name_exists_local (cycleExpNames db) db = Except.ok dl) :
    dl.map Prod.fst
      = ((sortStrings (get_local_collection db)).drop 1).filter endsWithDATA := by
  have hk := check_exp_keys (cycleExpNames db) db dl h
  simpa [cycleExpNames] using hk

/-- C9 (witness): the amended theorem at a two-collection store. -/
theorem c9_witness :
    List.map Prod.fst [("e_DATA", (⟨PyTime.int0, PyTime.int0⟩ : LocalEntry))]
      = ((sortStrings (get_local_collection
          [("0", ([] : List Doc)), ("e_DATA", ([] : List Doc))])).drop 1).filter
          endsWithDATA :=
  c9_considered_amended [("0", ([] : List Doc)), ("e_DATA", ([] : List Doc))]
    [("e_DATA", ⟨PyTime.int0, PyTime.int0⟩)] (by decide)

/-- C10: a Blob Archive failure is always swallowed: `upload_json_batch_to_gcs`
returns normally with nothing stored; a cycle in which *every* blob write
fails produces exactly the effects of a fully successful cycle except that no
blob is stored (same experiments, same insert calls, same flush boundaries,
same label updates — and no re-archiving of the lost batches); such a cycle
succeeds exactly when the all-uploads-succeed cycle does, and a successful
cycle resets the scheduler's backoff to 15 minutes. -/
theorem c10_blob_failure_swallowed :
    (∀ b : List UpDoc, upload_json_batch_to_gcs false b = none)
    ∧ (∀ (db : LocalDB) (http : HTTPOutcome) (queryFails : String → Bool),
        Mongo_Push_Cloud db http false queryFails
          = (Mongo_Push_Cloud db http true queryFails).map (List.map eraseEffBlob))
    ∧ (∀ (db : LocalDB) (http : HTTPOutcome) (queryFails : String → Bool),
        (Mongo_Push_Cloud db http false queryFails).isSome
          = (Mongo_Push_Cloud db http true queryFails).isSome)
    ∧ (∀ s : BackoffState, schedStep s CycleOutcome.success = ⟨15 * MINUTE, true⟩) := by
  have h2 : ∀ (db : LocalDB) (http : HTTPOutcome) (queryFails : String → Bool),
      Mongo_Push_Cloud db http false queryFails
        = (Mongo_Push_Cloud db http true queryFails).map (List.map eraseEffBlob) := by
    intro db http queryFails
    simp only [Mongo_Push_Cloud]
    split
    · rfl
    · split
      · rfl
      · simp only [Option.map_some']
        rw [Push_To_Mongo_gcsFail]
  refine ⟨fun b => rfl, h2, ?_, fun s => rfl⟩
  intro db http queryFails
  rw [h2 db http queryFails]
  cases Mongo_Push_Cloud db http true queryFails <;> rfl
